import Mathlib

/-!
Verification of the midistuff repository: a shallow embedding of the
tempo-to-SysEx codec (`tempo_to_sysex.py`), the textual SysEx transcoder
(`send_sysex.py`) and the tempo-timeline extractor
(`extract_tempo_events.py`), together with theorems settling the
specification's claims about them.

Python integers are modelled as `Int`/`Nat`; `t & 0x7F` on a Python int is
`t.emod 128` (Python's `&` with a non-negative mask acts as the
floor-style modulus) and `t >> 7` is `t.ediv 128` (Python's right shift is
floor division).  Python floats are modelled as exact rationals; Python's
`round` is round-half-to-even and `int()` truncates toward zero.  A Python
float literal denotes its IEEE binary64 value, so a statement about the
program at such a literal is settled at the exact rational value of that
double, and concrete float inputs are chosen so that every float operation
the code performs at them is exact (or provably rounds to the same integer
as the exact computation), making the rational evaluation coincide with
the program's float evaluation.
-/

set_option maxRecDepth 8000

/-- Decidable equality for `Except`, needed so `decide` can evaluate
equations between results of the embedded fallible functions. -/
instance exceptDecEq {ε α : Type} [DecidableEq ε] [DecidableEq α] :
    DecidableEq (Except ε α)
  | .error a, .error b =>
    if h : a = b then .isTrue (by rw [h])
    else .isFalse (fun hh => h (by injection hh))
  | .error _, .ok _ => .isFalse (fun hh => Except.noConfusion hh)
  | .ok _, .error _ => .isFalse (fun hh => Except.noConfusion hh)
  | .ok a, .ok b =>
    if h : a = b then .isTrue (by rw [h])
    else .isFalse (fun hh => h (by injection hh))

/-- Python's `int()` applied to a rational: truncation toward zero. -/
def pyTrunc (q : ℚ) : ℤ :=
  if q < 0 then ⌈q⌉ else ⌊q⌋

/-- Python's `round()` applied to a rational: round half to even. -/
def pyRound (q : ℚ) : ℤ :=
  let f := ⌊q⌋
  let r := q - f
  if r < 1 / 2 then f
  else if 1 / 2 < r then f + 1
  else if f % 2 = 0 then f else f + 1

/-! ## Embedding of `tempo_to_sysex.py` -/

/-- The error raised by `calculate_checksum` on empty input
(`ValueError("Checksum requires at least one byte of data.")`); the spec
calls this condition `InvalidInput`. -/
inductive SysexErr : Type
  | invalidInput
deriving DecidableEq

/-- `tempo_to_sysex_bytes(tempo)`: `lsb = tempo & 0x7F`,
`msb = (tempo >> 7) & 0x7F`. -/
def tempo_to_sysex_bytes (tempo : ℤ) : ℕ × ℕ :=
  ((tempo.emod 128).toNat, ((tempo.ediv 128).emod 128).toNat)

/-- `calculate_checksum(data)`: raises on empty input, otherwise
`reduce(xor, data) & 0x7F` (the fold starts from the first element). -/
def calculate_checksum (data : List ℕ) : Except SysexErr ℕ :=
  match data with
  | [] => .error .invalidInput
  | x :: xs => .ok ((xs.foldl (· ^^^ ·) x) &&& 0x7F)

/-- `build_sysex_message(tempo)`: the checksum is computed over
`body = [0xF0, 0x00, 0x01, 0x74, 0x11, 0x14, lsb, msb]` — note that the
leading `0xF0` delimiter is part of the checksum input in the code. -/
def build_sysex_message (tempo : ℤ) : Except SysexErr (List ℕ) :=
  let (lsb, msb) := tempo_to_sysex_bytes tempo
  let body : List ℕ := [0xF0, 0x00, 0x01, 0x74, 0x11, 0x14, lsb, msb]
  match calculate_checksum body with
  | .error e => .error e
  | .ok checksum => .ok (body ++ [checksum, 0xF7])

/-- Two-or-more uppercase hex digits of `n`, zero padded to width 2,
modelling Python's format spec `02X` used for each byte. -/
def toHex2 (n : ℕ) : List Char :=
  let ds := (Nat.toDigits 16 n).map Char.toUpper
  List.replicate (2 - ds.length) '0' ++ ds

/-- Join character-list tokens with single spaces, modelling
`" ".join(...)`. -/
def sepJoin : List (List Char) → List Char
  | [] => []
  | [t] => t
  | t :: u :: r => t ++ ' ' :: sepJoin (u :: r)

/-- Render a byte list the way the repository prints SysEx messages:
space-separated uppercase two-digit hex bytes. -/
def hexRenderStr (msg : List ℕ) : String :=
  String.mk (sepJoin (msg.map toHex2))

/-! ## Embedding of `extract_tempo_events.py` -/

/-- A message of the external MIDI-file iteration contract:
`message.time` (delta seconds), `message.type`, and `message.tempo`
(microseconds per beat, meaningful for `"set_tempo"` messages). -/
structure MidiMessage : Type where
  time : ℚ
  type : String
  tempo : ℕ
deriving DecidableEq

/-- Modelled from the spec: `mido.tempo2bpm` lives in the external mido
library, which is not part of the repository; the spec defines the
conversion as `bpm = 60_000_000 / microsecondsPerBeat`. -/
def tempo2bpm (tempo : ℕ) : ℚ :=
  60000000 / (tempo : ℚ)

/-- The loop body of `iter_tempo_events`: the running elapsed accumulator
is incremented by `message.time` before the event-kind test. -/
def iterTempoAux (elapsed : ℚ) : List MidiMessage → List (ℚ × ℚ)
  | [] => []
  | m :: rest =>
    if m.type = "set_tempo" then
      (elapsed + m.time, tempo2bpm m.tempo) :: iterTempoAux (elapsed + m.time) rest
    else
      iterTempoAux (elapsed + m.time) rest

/-- `iter_tempo_events(mid)`: yield `(elapsed_seconds, bpm)` for each
tempo event, with `elapsed_seconds` starting at `0.0`. -/
def iter_tempo_events (msgs : List MidiMessage) : List (ℚ × ℚ) :=
  iterTempoAux 0 msgs

/-- Zero-padded decimal rendering of `n` with at least `width` digits,
modelling Python's format spec `0{width}d` for non-negative values. -/
def padNat (width n : ℕ) : String :=
  let s := Nat.repr n
  String.mk (List.replicate (width - s.length) '0' ++ s.data)

/-- Python's `f"{n:0{width}d}"` on an integer: the sign occupies one
column of the requested width. -/
def intPad (width : ℕ) (n : ℤ) : String :=
  if n < 0 then "-" ++ padNat (width - 1) (-n).toNat else padNat width n.toNat

/-- The f-string `f"{minutes:02d}:{sec:02d}.{milliseconds:03d}"`. -/
def timeString (minutes sec milliseconds : ℤ) : String :=
  intPad 2 minutes ++ ":" ++ intPad 2 sec ++ "." ++ intPad 3 milliseconds

/-- `format_timestamp(seconds)`: minutes by floor division, seconds by
`int()` truncation, milliseconds by `round()`, then the carry rule.  The
source operates on a binary64 float; this embedding computes exactly on
the rational value of that float, so it agrees with the program wherever
the code's float operations are exact or round to the same side of the
relevant rounding boundary (as at every concrete input used below). -/
def format_timestamp (seconds : ℚ) : String :=
  let minutes := ⌊seconds / 60⌋
  let remaining_seconds := seconds - minutes * 60
  let sec := pyTrunc remaining_seconds
  let milliseconds := pyRound ((remaining_seconds - sec) * 1000)
  if milliseconds = 1000 then
    if sec + 1 = 60 then timeString (minutes + 1) 0 0
    else timeString minutes (sec + 1) 0
  else timeString minutes sec milliseconds

/-- The spec's description of the timestamp formatter, written with the
spec's words: `minutes = floor(seconds / 60)`,
`wholeSeconds = floor(remaining)`,
`milliseconds = round((remaining - wholeSeconds) * 1000)`, and the same
carry rule. -/
def format_timestamp_claim (seconds : ℚ) : String :=
  let minutes := ⌊seconds / 60⌋
  let remaining := seconds - minutes * 60
  let wholeSeconds := ⌊remaining⌋
  let milliseconds := pyRound ((remaining - wholeSeconds) * 1000)
  if milliseconds = 1000 then
    if wholeSeconds + 1 = 60 then timeString (minutes + 1) 0 0
    else timeString minutes (wholeSeconds + 1) 0
  else timeString minutes wholeSeconds milliseconds

/-- `tempo_to_sysex_hex(bpm)`: round the BPM to the nearest integer,
build the SysEx message and render it in hex. -/
def tempo_to_sysex_hex (bpm : ℚ) : Except SysexErr String :=
  match build_sysex_message (pyRound bpm) with
  | .error e => .error e
  | .ok message => .ok (hexRenderStr message)

/-- The spec's per-index description of the timeline extractor: event
`i`, when it is a tempo change, yields the sum of the delta times up to
and including index `i`, paired with `60000000 / microsecondsPerBeat`. -/
def tempoEventAt (msgs : List MidiMessage) (i : ℕ) : Option (ℚ × ℚ) :=
  let m := msgs.getD i ⟨0, "", 0⟩
  if m.type = "set_tempo" then
    some (((msgs.take (i + 1)).map MidiMessage.time).sum, tempo2bpm m.tempo)
  else
    none

/-- The spec's description of the whole timeline extraction, assembled
from `tempoEventAt` in source order. -/
def iter_claim (msgs : List MidiMessage) : List (ℚ × ℚ) :=
  (List.range msgs.length).filterMap (tempoEventAt msgs)

/-! ## Embedding of `send_sysex.py` -/

/-- The distinct `ValueError`s raised by `parse_sysex_input`; the spec
groups `emptyToken`, `invalidHex` and `byteOutOfRange` under
`InvalidToken`. -/
inductive ParseError : Type
  | oddLength
  | emptyToken
  | invalidHex
  | byteOutOfRange
  | emptyMessage
deriving DecidableEq

/-- Accumulator-based whitespace splitting, modelling Python's
`str.split()` with no arguments: split on whitespace runs, drop empty
tokens.  `acc` holds the characters of the current token in reverse. -/
def splitWsAux : List Char → List Char → List (List Char)
  | [], acc => if acc = [] then [] else [acc.reverse]
  | c :: rest, acc =>
    if c.isWhitespace then
      if acc = [] then splitWsAux rest [] else acc.reverse :: splitWsAux rest []
    else
      splitWsAux rest (c :: acc)

/-- `sanitized.split()`. -/
def splitWs (cs : List Char) : List (List Char) :=
  splitWsAux cs []

/-- `[stripped[i : i + 2] for i in range(0, len(stripped), 2)]`. -/
def pairs : List Char → List (List Char)
  | [] => []
  | [c] => [[c]]
  | a :: b :: rest => [a, b] :: pairs rest

/-- The value of a single hexadecimal digit, as accepted by
`int(token, 16)` for each character of the token. -/
def hexDigitValue (c : Char) : Option ℕ :=
  if '0' ≤ c ∧ c ≤ '9' then some (c.toNat - '0'.toNat)
  else if 'a' ≤ c ∧ c ≤ 'f' then some (c.toNat - 'a'.toNat + 10)
  else if 'A' ≤ c ∧ c ≤ 'F' then some (c.toNat - 'A'.toNat + 10)
  else none

/-- `int(token, 16)` on a token of plain hexadecimal digits. -/
def hexValue (cs : List Char) : Option ℕ :=
  cs.foldl (fun acc c => acc.bind fun a => (hexDigitValue c).map fun d => 16 * a + d)
    (some 0)

/-- `token[2:] if token.startswith("0x") else token` (the token has
already been lowercased). -/
def stripHexMark : List Char → List Char
  | '0' :: 'x' :: rest => rest
  | t => t

/-- The per-token work of the parse loop: lowercase, strip one `0x`
mark, reject empty tokens, convert from hex, range-check the value. -/
def processToken (token : List Char) : Except ParseError ℕ :=
  let t := stripHexMark (token.map Char.toLower)
  if t = [] then .error .emptyToken
  else
    match hexValue t with
    | none => .error .invalidHex
    | some value => if value ≤ 0xFF then .ok value else .error .byteOutOfRange

/-- The parse loop over all tokens, in order, stopping at the first
failing token. -/
def parseTokens : List (List Char) → Except ParseError (List ℕ)
  | [] => .ok []
  | t :: rest =>
    match processToken t with
    | .error e => .error e
    | .ok v =>
      match parseTokens rest with
      | .error e => .error e
      | .ok vs => .ok (v :: vs)

/-- The body of `parse_sysex_input` on the character sequence of the
input string: replace commas by spaces, split on whitespace; with at
most one token, fall back to fixed-width pairs of the de-spaced string
(rejecting odd lengths); parse every token; reject an empty result. -/
def parse_sysex_core (cs : List Char) : Except ParseError (List ℕ) :=
  let sanitized := cs.map fun c => if c = ',' then ' ' else c
  let tokens := splitWs sanitized
  let toks : Except ParseError (List (List Char)) :=
    if tokens.length ≤ 1 then
      let stripped := sanitized.filter fun c => c ≠ ' '
      if stripped.length % 2 ≠ 0 then .error .oddLength
      else .ok (pairs stripped)
    else .ok tokens
  match toks with
  | .error e => .error e
  | .ok ts =>
    match parseTokens ts with
    | .error e => .error e
    | .ok bytes_out =>
      if bytes_out = [] then .error .emptyMessage else .ok bytes_out

/-- `parse_sysex_input(raw_message)`, acting on the string's character
data. -/
def parse_sysex_input (raw_message : String) : Except ParseError (List ℕ) :=
  parse_sysex_core raw_message.data

/-- `prepare_sysex_payload(bytes_in)`: `data[0]` raises `IndexError` on
an empty list (modelled as `none`); otherwise drop one leading `0xF0`
and, if the remainder is non-empty, one trailing `0xF7`. -/
def prepare_sysex_payload (bytes_in : List ℕ) : Option (List ℕ) :=
  match bytes_in with
  | [] => none
  | b :: rest =>
    let data := if b = 0xF0 then rest else b :: rest
    if data.getLast? = some 0xF7 then some data.dropLast else some data

/-! ## Spec-modelled decoder -/

/-- Decode-side failures named by the spec. -/
inductive DecodeErr : Type
  | malformedFrame
  | checksumMismatch
deriving DecidableEq

/-- Modelled from the spec: the repository contains no decoder; the spec
requires one that rejects frames whose length is not 10 or whose
delimiters are wrong, recomputes the checksum as the 7-bit XOR of the
seven delimiter-free body bytes (frame positions 1 through 7), compares
it with the embedded checksum byte (position 8), and reconstructs
`tempo = lsb | (msb << 7)` from positions 6 and 7. -/
def decode_sysex (msg : List ℕ) : Except DecodeErr ℕ :=
  if msg.length = 10 ∧ msg.getD 0 0 = 0xF0 ∧ msg.getD 9 0 = 0xF7 then
    let body := (msg.drop 1).take 7
    let expected := (body.foldl (· ^^^ ·) 0) &&& 0x7F
    if msg.getD 8 0 = expected then
      .ok ((msg.getD 6 0) ||| ((msg.getD 7 0) <<< 7))
    else .error .checksumMismatch
  else .error .malformedFrame

/-! ## Helper lemmas -/

lemma foldl_xor_acc (l : List ℕ) (a : ℕ) :
    l.foldl (· ^^^ ·) a = a ^^^ l.foldl (· ^^^ ·) 0 := by
  induction l generalizing a with
  | nil => simp
  | cons x t ih =>
    simp only [List.foldl_cons]
    rw [ih (a ^^^ x), ih (0 ^^^ x), Nat.zero_xor, Nat.xor_assoc]

lemma calculate_checksum_ok (l : List ℕ) (h : l ≠ []) :
    calculate_checksum l = .ok ((l.foldl (· ^^^ ·) 0) &&& 0x7F) := by
  match l with
  | [] => exact absurd rfl h
  | x :: xs =>
    simp only [calculate_checksum, List.foldl_cons, Nat.zero_xor]

lemma foldl_xor_set (l : List ℕ) (i : ℕ) (hi : i < l.length) (m : ℕ) :
    ((l.set i ((l.getD i 0) ^^^ m)).foldl (· ^^^ ·) 0) =
      (l.foldl (· ^^^ ·) 0) ^^^ m := by
  induction l generalizing i with
  | nil => simp at hi
  | cons x t ih =>
    cases i with
    | zero =>
      rw [List.getD_cons_zero, List.set_cons_zero]
      simp only [List.foldl_cons]
      rw [foldl_xor_acc t (0 ^^^ (x ^^^ m)), foldl_xor_acc t (0 ^^^ x),
        Nat.zero_xor, Nat.zero_xor, Nat.xor_assoc, Nat.xor_comm m _,
        ← Nat.xor_assoc]
    | succ j =>
      have hj : j < t.length := by simpa using hi
      rw [List.getD_cons_succ, List.set_cons_succ]
      simp only [List.foldl_cons]
      rw [foldl_xor_acc (t.set j (t.getD j 0 ^^^ m)) (0 ^^^ x),
        foldl_xor_acc t (0 ^^^ x), Nat.zero_xor, ih j hj, ← Nat.xor_assoc]

lemma masked_xor_ne (s m j : ℕ) (hm : Nat.testBit m j = true)
    (h7 : Nat.testBit 127 j = true) :
    ((m ^^^ s) &&& 127) ≠ (s &&& 127) := by
  intro h
  have hb := congrArg (fun x => Nat.testBit x j) h
  simp only [Nat.testBit_and, Nat.testBit_xor, hm, h7, Bool.and_true,
    Bool.true_xor] at hb
  exact absurd hb (by cases hx : Nat.testBit s j <;> simp [hx])

/-! ## Claim C9: checksum contract -/

/-- C9: `calculate_checksum` fails with the `InvalidInput` error exactly
when the input is empty, and on every non-empty input returns the XOR of
all input bytes masked to 7 bits. -/
theorem calculate_checksum_contract :
    calculate_checksum [] = .error .invalidInput ∧
    ∀ data : List ℕ, data ≠ [] →
      calculate_checksum data = .ok ((data.foldl (· ^^^ ·) 0) &&& 0x7F) :=
  ⟨rfl, fun data h => calculate_checksum_ok data h⟩

/-- Witness for C9 at the concrete non-empty input `[0xF0, 0x0F]`. -/
theorem calculate_checksum_contract_witness :
    ([0xF0, 0x0F] : List ℕ) ≠ [] ∧
    calculate_checksum [0xF0, 0x0F] =
      .ok ((([0xF0, 0x0F] : List ℕ).foldl (· ^^^ ·) 0) &&& 0x7F) :=
  ⟨by decide, calculate_checksum_contract.2 [0xF0, 0x0F] (by decide)⟩

/-! ## Claim C1: checksum scope and the tempo-120 frame -/

/-- C1 counterexample: at tempo 120 the code produces checksum byte
`0x78`, not the delimiter-free 7-bit XOR `0x08` of the seven body bytes,
and the full message differs from the `F0 .. 74 F7` frame the claim
states. -/
theorem encode120_checksum_not_delimiter_free :
    build_sysex_message 120 =
      .ok [0xF0, 0x00, 0x01, 0x74, 0x11, 0x14, 0x78, 0x00, 0x78, 0xF7] ∧
    (([0x00, 0x01, 0x74, 0x11, 0x14, 0x78, 0x00] : List ℕ).foldl
        (· ^^^ ·) 0) &&& 0x7F = 0x08 ∧
    (0x78 : ℕ) ≠ 0x08 ∧
    build_sysex_message 120 ≠
      .ok [0xF0, 0x00, 0x01, 0x74, 0x11, 0x14, 0x78, 0x00, 0x74, 0xF7] :=
  ⟨rfl, by decide, by decide, by decide⟩

/-- C1 (amended): the checksum byte of `build_sysex_message t` is the
7-bit XOR of the first eight frame bytes — the leading `0xF0` delimiter
included — and `build_sysex_message 120` is
`F0 00 01 74 11 14 78 00 78 F7` with checksum byte `0x78`. -/
theorem encode_checksum_covers_first_eight_bytes :
    (∀ (t : ℤ) (f : List ℕ), build_sysex_message t = .ok f →
      f.getD 8 0 = ((f.take 8).foldl (· ^^^ ·) 0) &&& 0x7F) ∧
    build_sysex_message 120 =
      .ok [0xF0, 0x00, 0x01, 0x74, 0x11, 0x14, 0x78, 0x00, 0x78, 0xF7] := by
  constructor
  · intro t f hf
    have hf' : Except.ok (ε := SysexErr)
        ([0xF0, 0x00, 0x01, 0x74, 0x11, 0x14,
          (tempo_to_sysex_bytes t).1, (tempo_to_sysex_bytes t).2] ++
         [(([0x00, 0x01, 0x74, 0x11, 0x14,
             (tempo_to_sysex_bytes t).1,
             (tempo_to_sysex_bytes t).2].foldl (· ^^^ ·) 0xF0)) &&& 0x7F,
          0xF7]) = .ok f := hf
    have hfe := Except.ok.inj hf'
    subst hfe
    simp only [List.cons_append, List.nil_append, List.getD, List.take,
      List.getElem?_cons_succ, List.getElem?_cons_zero, Option.getD_some,
      List.foldl_cons, List.foldl_nil, Nat.zero_xor]
    rfl
  · rfl

/-- Witness for C1's amended theorem at tempo 120. -/
theorem encode_checksum_covers_first_eight_bytes_witness :
    build_sysex_message 120 =
      .ok [0xF0, 0x00, 0x01, 0x74, 0x11, 0x14, 0x78, 0x00, 0x78, 0xF7] ∧
    ([0xF0, 0x00, 0x01, 0x74, 0x11, 0x14, 0x78, 0x00, 0x78, 0xF7] :
        List ℕ).getD 8 0 =
      ((([0xF0, 0x00, 0x01, 0x74, 0x11, 0x14, 0x78, 0x00, 0x78, 0xF7] :
          List ℕ).take 8).foldl (· ^^^ ·) 0) &&& 0x7F :=
  ⟨rfl, encode_checksum_covers_first_eight_bytes.1 120 _ rfl⟩

/-! ## Claim C2: no range validation in the encoder -/

/-- C2 counterexample: tempos 300 and 5 are outside `10..255`, yet
`build_sysex_message` silently produces a frame instead of failing, and
`tempo_to_sysex_hex` happily renders the out-of-range BPM 300. -/
theorem encode_out_of_range_no_error :
    build_sysex_message 300 =
      .ok [0xF0, 0x00, 0x01, 0x74, 0x11, 0x14, 0x2C, 0x02, 0x2E, 0xF7] ∧
    build_sysex_message 5 =
      .ok [0xF0, 0x00, 0x01, 0x74, 0x11, 0x14, 0x05, 0x00, 0x05, 0xF7] ∧
    tempo_to_sysex_hex 300 = .ok "F0 00 01 74 11 14 2C 02 2E F7" := by
  have hr : pyRound (300 : ℚ) = 300 := by unfold pyRound; norm_num
  refine ⟨by decide, by decide, ?_⟩
  simp only [tempo_to_sysex_hex, hr]
  decide

/-- C2 (amended): the encoder performs no range validation at all — for
every integer tempo it silently returns a 10-byte `F0 .. F7` frame, and
`tempo_to_sysex_hex` renders a message for every BPM; the `10..255`
bound is enforced only by the interactive prompt `read_tempo`. -/
theorem encode_total_no_range_check :
    (∀ t : ℤ, ∃ f, build_sysex_message t = .ok f ∧ f.length = 10 ∧
      f.getD 0 0 = 0xF0 ∧ f.getD 9 0 = 0xF7) ∧
    (∀ bpm : ℚ, ∃ s, tempo_to_sysex_hex bpm = .ok s) ∧
    build_sysex_message 300 =
      .ok [0xF0, 0x00, 0x01, 0x74, 0x11, 0x14, 0x2C, 0x02, 0x2E, 0xF7] :=
  ⟨fun _ => ⟨_, rfl, rfl, rfl, rfl⟩, fun _ => ⟨_, rfl⟩, by decide⟩

/-! ## Claim C3: normalize idempotence -/

/-- C3 counterexample: the non-empty sequence `[0xF0, 0xF0]` normalizes
to `[0xF0]`, and normalizing again yields `[]`, so normalize is not
idempotent. -/
theorem normalize_not_idempotent_cex :
    ([0xF0, 0xF0] : List ℕ) ≠ [] ∧
    prepare_sysex_payload [0xF0, 0xF0] = some [0xF0] ∧
    (prepare_sysex_payload [0xF0, 0xF0]).bind prepare_sysex_payload = some [] ∧
    (prepare_sysex_payload [0xF0, 0xF0]).bind prepare_sysex_payload ≠
      prepare_sysex_payload [0xF0, 0xF0] := by
  refine ⟨by decide, rfl, rfl, by decide⟩

/-- C3 (amended): normalize is idempotent on every non-empty input whose
normalized form is non-empty and carries neither a leading `0xF0` nor a
trailing `0xF7`; it fails to be idempotent only when one round of
stripping still leaves a delimiter at an end, or leaves nothing. -/
theorem normalize_idempotent_on_stripped (b c : List ℕ)
    (h : prepare_sysex_payload b = some c) (hne : c ≠ [])
    (hh : c.head? ≠ some 0xF0) (hl : c.getLast? ≠ some 0xF7) :
    (prepare_sysex_payload b).bind prepare_sysex_payload =
      prepare_sysex_payload b := by
  rw [h]
  show prepare_sysex_payload c = some c
  cases c with
  | nil => exact absurd rfl hne
  | cons x r =>
    have hx : x ≠ 0xF0 := fun hxx => hh (by simp [List.head?, hxx])
    simp only [prepare_sysex_payload]
    rw [if_neg hx, if_neg hl]

/-- Witness for C3's amended theorem: `[0xF0, 0x01, 0xF7]` normalizes to
`[0x01]`, which normalize then leaves unchanged. -/
theorem normalize_idempotent_on_stripped_witness :
    prepare_sysex_payload [0xF0, 0x01, 0xF7] = some [0x01] ∧
    ([0x01] : List ℕ) ≠ [] ∧
    ([0x01] : List ℕ).head? ≠ some 0xF0 ∧
    ([0x01] : List ℕ).getLast? ≠ some 0xF7 ∧
    (prepare_sysex_payload [0xF0, 0x01, 0xF7]).bind prepare_sysex_payload =
      prepare_sysex_payload [0xF0, 0x01, 0xF7] :=
  ⟨rfl, by decide, by decide, by decide,
    normalize_idempotent_on_stripped [0xF0, 0x01, 0xF7] [0x01] rfl
      (by decide) (by decide) (by decide)⟩

/-! ## Claim C4: single-bit sensitivity of the checksum -/

/-- C4 counterexample: flipping bit 7 (which the claim's range `0..7`
includes) of the only byte of `[0x00]` leaves the 7-bit checksum
unchanged, because the mask `& 0x7F` discards bit 7. -/
theorem checksum_high_bit_flip_invariant :
    (∀ x ∈ ([0x00] : List ℕ), x ≤ 0xFF) ∧ ([0x00] : List ℕ) ≠ [] ∧
    (0 : ℕ) < ([0x00] : List ℕ).length ∧ (7 : ℕ) ≤ 7 ∧
    ([0x00] : List ℕ).set 0 ((([0x00] : List ℕ).getD 0 0) ^^^ 2 ^ 7) =
      [0x80] ∧
    calculate_checksum (([0x00] : List ℕ).set 0
        ((([0x00] : List ℕ).getD 0 0) ^^^ 2 ^ 7)) =
      calculate_checksum [0x00] := by
  refine ⟨by decide, by decide, by decide, by decide, by decide, by decide⟩

/-- C4 (amended): flipping any one of the seven low bits (`k < 7`) of
any byte of a non-empty byte sequence changes `calculate_checksum`;
only a bit-7 flip escapes it. -/
theorem checksum_low_bit_flip_changes (b : List ℕ) (i k : ℕ)
    (hb : ∀ x ∈ b, x ≤ 0xFF) (hne : b ≠ []) (hi : i < b.length)
    (hk : k < 7) :
    calculate_checksum (b.set i ((b.getD i 0) ^^^ 2 ^ k)) ≠
      calculate_checksum b := by
  have hset : b.set i ((b.getD i 0) ^^^ 2 ^ k) ≠ [] := by
    intro h0
    apply hne
    have hlen := congrArg List.length h0
    rw [List.length_set] at hlen
    exact List.length_eq_zero.mp hlen
  rw [calculate_checksum_ok _ hset, calculate_checksum_ok b hne]
  intro h
  have hv := Except.ok.inj h
  rw [foldl_xor_set b i hi] at hv
  have h2 : Nat.testBit (2 ^ k) k = true := Nat.testBit_two_pow_self
  have h7 : Nat.testBit 127 k = true := by interval_cases k <;> decide
  exact masked_xor_ne (b.foldl (· ^^^ ·) 0) (2 ^ k) k h2 h7
    (by rw [Nat.xor_comm]; exact hv)

/-- Witness for C4's amended theorem: flipping bit 0 of `[0x01]` changes
the checksum from 1 to 0. -/
theorem checksum_low_bit_flip_changes_witness :
    (∀ x ∈ ([0x01] : List ℕ), x ≤ 0xFF) ∧ ([0x01] : List ℕ) ≠ [] ∧
    (0 : ℕ) < ([0x01] : List ℕ).length ∧ (0 : ℕ) < 7 ∧
    calculate_checksum (([0x01] : List ℕ).set 0
        ((([0x01] : List ℕ).getD 0 0) ^^^ 2 ^ 0)) ≠
      calculate_checksum [0x01] :=
  ⟨by decide, by decide, by decide, by decide,
    checksum_low_bit_flip_changes [0x01] 0 0 (by decide) (by decide)
      (by decide) (by decide)⟩

/-! ## Claim C6: timestamp formatting -/

/-- C6 counterexample: the program receives the literal `59.9995` as the
binary64 double `8444178932575502 / 2^47 = 59.99949999999999761946...`,
slightly below `59.9995`.  At this value every float operation the code
performs is exact — `x // 60 = 0.0`, `x - 0*60 = x`, `int(x) = 59`,
`x - 59 = 140667119611150 / 2^47` by Sterbenz, and even the final
`* 1000` lands exactly on `8791694975696875 / 2^43 = 999.4999999999976`
— so the exact rational evaluation below reproduces the program's float
run byte for byte.  The milliseconds round to `999`, not `1000`: no
carry fires and the program returns `"00:59.999"`, refuting the claimed
`"01:00.000"`.  The second conjunct checks Python's `round` at the very
float the program's multiplication produced. -/
theorem format_timestamp_float_cex :
    format_timestamp (8444178932575502 / 140737488355328 : ℚ) = "00:59.999" ∧
    pyRound (8791694975696875 / 8796093022208 : ℚ) = 999 ∧
    ("00:59.999" : String) ≠ "01:00.000" := by
  refine ⟨?_, ?_, by decide⟩
  · have hmin :
        (⌊(8444178932575502 / 140737488355328 : ℚ) / 60⌋ : ℤ) = 0 := by
      norm_num
    simp only [format_timestamp, hmin]
    norm_num [pyTrunc, pyRound]
    decide
  · unfold pyRound
    norm_num

/-- C6 (amended): `format_timestamp` computes minutes by flooring
`seconds / 60`, whole seconds by flooring the remainder, milliseconds by
rounding the fractional part times 1000, and applies the carry rule —
proved by agreement with the spec-worded `format_timestamp_claim` for
every non-negative input.  But `format(59.9995)` returns `"00:59.999"`:
the binary64 value of the literal is `8444178932575502 / 2^47`, just
below `59.9995`, and its milliseconds round to `999` (the spec's
`"01:00.000"` presumes exact decimal arithmetic).  The carry does fire
at inputs whose milliseconds round to 1000, e.g. the float-exact
`59.9998779296875 = 491519 / 8192`, where the program (all of whose
float operations are again exact) prints `"01:00.000"`. -/
theorem format_timestamp_algorithm_amended :
    (∀ s : ℚ, 0 ≤ s → format_timestamp s = format_timestamp_claim s) ∧
    format_timestamp (8444178932575502 / 140737488355328 : ℚ) = "00:59.999" ∧
    format_timestamp (491519 / 8192 : ℚ) = "01:00.000" := by
  refine ⟨?_, ?_, ?_⟩
  · intro s _
    have h0 : (0 : ℚ) ≤ s - (⌊s / 60⌋ : ℤ) * 60 := by
      have hle : ((⌊s / 60⌋ : ℤ) : ℚ) ≤ s / 60 := Int.floor_le (s / 60)
      have h2 : ((⌊s / 60⌋ : ℤ) : ℚ) * 60 ≤ s / 60 * 60 :=
        mul_le_mul_of_nonneg_right hle (by norm_num)
      rw [div_mul_cancel₀ s (by norm_num : (60 : ℚ) ≠ 0)] at h2
      linarith
    have htr : pyTrunc (s - (⌊s / 60⌋ : ℤ) * 60) = ⌊s - (⌊s / 60⌋ : ℤ) * 60⌋ := by
      unfold pyTrunc
      rw [if_neg (not_lt.mpr h0)]
    simp only [format_timestamp, format_timestamp_claim, htr]
  · have hmin :
        (⌊(8444178932575502 / 140737488355328 : ℚ) / 60⌋ : ℤ) = 0 := by
      norm_num
    simp only [format_timestamp, hmin]
    norm_num [pyTrunc, pyRound]
    decide
  · have hmin : (⌊(491519 / 8192 : ℚ) / 60⌋ : ℤ) = 0 := by norm_num
    simp only [format_timestamp, hmin]
    norm_num [pyTrunc, pyRound]
    decide

/-- Witness for C6's amended theorem at the non-negative carry input
`491519 / 8192 = 59.9998779296875`. -/
theorem format_timestamp_algorithm_amended_witness :
    (0 : ℚ) ≤ 491519 / 8192 ∧
    format_timestamp (491519 / 8192 : ℚ) =
      format_timestamp_claim (491519 / 8192 : ℚ) ∧
    format_timestamp (491519 / 8192 : ℚ) = "01:00.000" :=
  ⟨by norm_num,
    format_timestamp_algorithm_amended.1 (491519 / 8192 : ℚ) (by norm_num),
    format_timestamp_algorithm_amended.2.2⟩

/-! ## Claim C7: the tempo timeline extractor -/

lemma iterTempoAux_shift (msgs : List MidiMessage) (e : ℚ) :
    iterTempoAux e msgs = (iterTempoAux 0 msgs).map (fun p => (e + p.1, p.2)) := by
  induction msgs generalizing e with
  | nil => simp [iterTempoAux]
  | cons m rest ih =>
    by_cases h : m.type = "set_tempo"
    · simp only [iterTempoAux, if_pos h]
      rw [ih (e + m.time), ih (0 + m.time)]
      simp [Function.comp, add_assoc]
    · simp only [iterTempoAux, if_neg h]
      rw [ih (e + m.time), ih (0 + m.time)]
      simp [Function.comp, add_assoc]

lemma tempoEventAt_cons (m : MidiMessage) (rest : List MidiMessage) (i : ℕ) :
    tempoEventAt (m :: rest) (i + 1) =
      (tempoEventAt rest i).map (fun p => (m.time + p.1, p.2)) := by
  simp only [tempoEventAt, List.getD_cons_succ, List.take_succ_cons,
    List.map_cons, List.sum_cons]
  by_cases h : (rest.getD i ⟨0, "", 0⟩).type = "set_tempo"
  · simp [h]
  · simp [h]

lemma iter_claim_cons (m : MidiMessage) (rest : List MidiMessage) :
    iter_claim (m :: rest) =
      (if m.type = "set_tempo" then [(m.time, tempo2bpm m.tempo)] else []) ++
        (iter_claim rest).map (fun p => (m.time + p.1, p.2)) := by
  have hcomp : (tempoEventAt (m :: rest)) ∘ Nat.succ =
      fun i => (tempoEventAt rest i).map (fun p => (m.time + p.1, p.2)) := by
    funext i
    exact tempoEventAt_cons m rest i
  by_cases h : m.type = "set_tempo"
  · rw [iter_claim, List.length_cons, List.range_succ_eq_map,
      List.filterMap_cons_some
        (show tempoEventAt (m :: rest) 0 = some (m.time, tempo2bpm m.tempo) by
          simp [tempoEventAt, h]),
      List.filterMap_map, hcomp, ← List.map_filterMap, if_pos h]
    rfl
  · rw [iter_claim, List.length_cons, List.range_succ_eq_map,
      List.filterMap_cons_none
        (show tempoEventAt (m :: rest) 0 = none by simp [tempoEventAt, h]),
      List.filterMap_map, hcomp, ← List.map_filterMap, if_neg h,
      List.nil_append]
    rfl

/-- C7: the extractor adds each event's delta seconds to the running
elapsed accumulator before testing the event kind, and yields
`(elapsed, 60000000 / microsecondsPerBeat)` for each tempo change; a
single tempo change at delta 2.5 s carrying 500000 yields
`(2.5, 120)`. -/
theorem iter_tempo_events_spec :
    (∀ msgs : List MidiMessage, iter_tempo_events msgs = iter_claim msgs) ∧
    iter_tempo_events [⟨5/2, "set_tempo", 500000⟩] = [(5/2, 120)] := by
  constructor
  · intro msgs
    induction msgs with
    | nil => rfl
    | cons m rest ih =>
      have ih' : iterTempoAux 0 rest = iter_claim rest := ih
      show iterTempoAux 0 (m :: rest) = _
      rw [iter_claim_cons]
      by_cases h : m.type = "set_tempo"
      · simp only [iterTempoAux, if_pos h]
        rw [iterTempoAux_shift rest (0 + m.time), ih']
        simp [zero_add]
      · simp only [iterTempoAux, if_neg h]
        rw [iterTempoAux_shift rest (0 + m.time), ih']
        simp [zero_add]
  · show iterTempoAux 0 [⟨5/2, "set_tempo", 500000⟩] = [(5/2, 120)]
    simp only [iterTempoAux, tempo2bpm]
    norm_num

/-! ## Claim C5: round-trip decoding -/

/-- C5 counterexample: at tempo 120 the encoder's embedded checksum
(which covers the leading `0xF0`) never matches the spec's decoder
recomputation over the seven delimiter-free body bytes, so decoding
`encode(120)` reports `checksumMismatch` instead of verifying. -/
theorem decode_encode_checksum_mismatch_cex :
    build_sysex_message 120 =
      .ok [0xF0, 0x00, 0x01, 0x74, 0x11, 0x14, 0x78, 0x00, 0x78, 0xF7] ∧
    decode_sysex [0xF0, 0x00, 0x01, 0x74, 0x11, 0x14, 0x78, 0x00, 0x78, 0xF7] =
      .error .checksumMismatch :=
  ⟨rfl, by decide⟩

/-- C5 (amended): for every tempo `t` in `10..255`, extracting `lsb` and
`msb` from positions 6 and 7 of `encode(t)` and computing
`lsb | (msb << 7)` recovers `t`; but the embedded checksum byte fails
the spec decoder's independent delimiter-free recomputation, because the
encoder folded the leading `0xF0` into its checksum. -/
theorem decode_encode_recovers_tempo_amended :
    ∀ t : ℤ, 10 ≤ t → t ≤ 255 → ∀ f, build_sysex_message t = .ok f →
      ((f.getD 6 0) ||| ((f.getD 7 0) <<< 7) = t.toNat) ∧
      decode_sysex f = .error .checksumMismatch := by
  intro t h10 h255 f hf
  have hf' : Except.ok (ε := SysexErr)
      ([0xF0, 0x00, 0x01, 0x74, 0x11, 0x14,
        (tempo_to_sysex_bytes t).1, (tempo_to_sysex_bytes t).2,
        (([0x00, 0x01, 0x74, 0x11, 0x14,
           (tempo_to_sysex_bytes t).1,
           (tempo_to_sysex_bytes t).2].foldl (· ^^^ ·) 0xF0)) &&& 0x7F,
        0xF7]) = .ok f := hf
  have hfe := Except.ok.inj hf'
  subst hfe
  constructor
  · show (t.emod 128).toNat ||| (((t.ediv 128).emod 128).toNat <<< 7) = t.toNat
    have key : ∀ n : ℕ, n < 256 → (n % 128) ||| ((n / 128 % 128) <<< 7) = n := by
      decide
    have ha : 128 * (t.ediv 128) + t.emod 128 = t := Int.ediv_add_emod t 128
    have hb : 0 ≤ t.emod 128 := Int.emod_nonneg t (by norm_num)
    have hc : t.emod 128 < 128 := Int.emod_lt_of_pos t (by norm_num)
    have hY0 : 0 ≤ t.ediv 128 := by omega
    have hY1 : t.ediv 128 < 128 := by omega
    have hYm : (t.ediv 128).emod 128 = t.ediv 128 := Int.emod_eq_of_lt hY0 hY1
    rw [hYm]
    have h1 : (t.emod 128).toNat = t.toNat % 128 := by omega
    have h2 : (t.ediv 128).toNat = t.toNat / 128 % 128 := by omega
    rw [h1, h2]
    exact key t.toNat (by omega)
  · have hcna : (([0x00, 0x01, 0x74, 0x11, 0x14,
        (tempo_to_sysex_bytes t).1,
        (tempo_to_sysex_bytes t).2] : List ℕ).foldl (· ^^^ ·) 0xF0) &&& 0x7F ≠
        (([0x00, 0x01, 0x74, 0x11, 0x14,
          (tempo_to_sysex_bytes t).1,
          (tempo_to_sysex_bytes t).2] : List ℕ).foldl (· ^^^ ·) 0) &&& 0x7F := by
      rw [foldl_xor_acc]
      exact masked_xor_ne _ 0xF0 4 (by decide) (by decide)
    show decode_sysex _ = _
    rw [decode_sysex]
    rw [if_pos ⟨rfl, rfl, rfl⟩]
    simp only [List.getD_cons_succ, List.getD_cons_zero, List.drop_succ_cons,
      List.drop_zero, List.take_succ_cons, List.take_zero]
    rw [if_neg hcna]

/-- Witness for C5's amended theorem at tempo 120. -/
theorem decode_encode_recovers_tempo_amended_witness :
    (10 : ℤ) ≤ 120 ∧ (120 : ℤ) ≤ 255 ∧
    build_sysex_message 120 =
      .ok [0xF0, 0x00, 0x01, 0x74, 0x11, 0x14, 0x78, 0x00, 0x78, 0xF7] ∧
    ((([0xF0, 0x00, 0x01, 0x74, 0x11, 0x14, 0x78, 0x00, 0x78, 0xF7] :
        List ℕ).getD 6 0) |||
      ((([0xF0, 0x00, 0x01, 0x74, 0x11, 0x14, 0x78, 0x00, 0x78, 0xF7] :
          List ℕ).getD 7 0) <<< 7) = (120 : ℤ).toNat) ∧
    decode_sysex [0xF0, 0x00, 0x01, 0x74, 0x11, 0x14, 0x78, 0x00, 0x78, 0xF7] =
      .error .checksumMismatch := by
  have h := decode_encode_recovers_tempo_amended 120 (by norm_num) (by norm_num)
    [0xF0, 0x00, 0x01, 0x74, 0x11, 0x14, 0x78, 0x00, 0x78, 0xF7] rfl
  exact ⟨by norm_num, by norm_num, rfl, h.1, h.2⟩

/-! ## Helper lemmas for the textual transcoder -/

lemma splitWsAux_nonspace (t : List Char) :
    ∀ acc : List Char, (∀ c ∈ t, ¬ c.isWhitespace = true) →
      (acc ≠ [] ∨ t ≠ []) → splitWsAux t acc = [acc.reverse ++ t] := by
  induction t with
  | nil =>
    intro acc _ hne
    have hacc : acc ≠ [] := by
      rcases hne with h | h
      · exact h
      · exact absurd rfl h
    simp [splitWsAux, hacc]
  | cons c rest ih =>
    intro acc ht _
    have hc : ¬ c.isWhitespace = true := ht c (by simp)
    simp only [splitWsAux]
    rw [if_neg hc,
      ih (c :: acc) (fun x hx => ht x (by simp [hx])) (Or.inl (by simp))]
    simp [List.reverse_cons, List.append_assoc]

lemma map_eq_self_of_all {f : Char → Char} :
    ∀ l : List Char, (∀ c ∈ l, f c = c) → l.map f = l := by
  intro l h
  induction l with
  | nil => rfl
  | cons c rest ih =>
    simp only [List.map_cons, h c (by simp)]
    rw [ih fun x hx => h x (by simp [hx])]

lemma hexDigitValue_not_ws (c : Char) (h : (hexDigitValue c).isSome = true) :
    ¬ c.isWhitespace = true ∧ c ≠ ',' := by
  constructor
  · intro hws
    have hcases : ((c = ' ' ∨ c = '\t') ∨ c = '\r') ∨ c = '\n' := by
      simpa [Char.isWhitespace] using hws
    rcases hcases with ((rfl | rfl) | rfl) | rfl <;> exact absurd h (by decide)
  · rintro rfl
    exact absurd h (by decide)

lemma parse_core_single (cs : List Char) (hne : cs ≠ [])
    (hfacts : ∀ c ∈ cs, ¬ c.isWhitespace = true ∧ c ≠ ',') :
    parse_sysex_core cs =
      if cs.length % 2 ≠ 0 then .error .oddLength
      else
        match parseTokens (pairs cs) with
        | .error e => .error e
        | .ok bytes_out =>
          if bytes_out = [] then .error .emptyMessage else .ok bytes_out := by
  have hsan : cs.map (fun c => if c = ',' then ' ' else c) = cs :=
    map_eq_self_of_all cs fun c hc => if_neg (hfacts c hc).2
  have hsplit : splitWs cs = [cs] := by
    have := splitWsAux_nonspace cs [] (fun c hc => (hfacts c hc).1) (Or.inr hne)
    simpa [splitWs] using this
  have hfilter : cs.filter (fun c => c ≠ ' ') = cs := by
    apply List.filter_eq_self.mpr
    intro c hc
    have hcs : c ≠ ' ' := fun h' => (hfacts c hc).1 (by rw [h']; decide)
    simpa using hcs
  simp only [parse_sysex_core, hsan, hsplit, hfilter]
  rw [if_pos (show ([cs] : List (List Char)).length ≤ 1 by simp)]
  by_cases hodd : cs.length % 2 ≠ 0
  · rw [if_pos hodd, if_pos hodd]
  · rw [if_neg hodd, if_neg hodd]

lemma parseTokens_cons_error (t : List Char) (ts : List (List Char))
    (e : ParseError) (h : processToken t = .error e) :
    parseTokens (t :: ts) = .error e := by
  show (match processToken t with
    | Except.error e => (Except.error e : Except ParseError (List ℕ))
    | Except.ok v =>
      match parseTokens ts with
      | Except.error e => Except.error e
      | Except.ok vs => Except.ok (v :: vs)) = Except.error e
  rw [h]

/-- C10: an input with no spaces or commas consisting of a `0x` (or
`0X`) mark followed by more than two hex digits is rejected: with an odd
digit count the fixed-width fallback fails with `oddLength`, and with an
even count the first two-character pair is exactly the mark, which
strips to an empty token and fails; `"0x7800"` fails with the
empty-token error. -/
theorem parse_prefixed_hex_rejected :
    (∀ (x : Char) (ds : List Char), (x = 'x' ∨ x = 'X') →
      (∀ c ∈ ds, (hexDigitValue c).isSome = true) → 2 < ds.length →
      ∃ e, parse_sysex_input (String.mk ('0' :: x :: ds)) = .error e) ∧
    parse_sysex_input "0x7800" = .error .emptyToken := by
  constructor
  · intro x ds hx hhex _
    have hfacts : ∀ c ∈ ('0' :: x :: ds), ¬ c.isWhitespace = true ∧ c ≠ ',' := by
      intro c hc
      rcases List.mem_cons.mp hc with rfl | hc2
      · exact ⟨by decide, by decide⟩
      rcases List.mem_cons.mp hc2 with rfl | hc3
      · rcases hx with rfl | rfl
        · exact ⟨by decide, by decide⟩
        · exact ⟨by decide, by decide⟩
      · exact hexDigitValue_not_ws c (hhex c hc3)
    have hne : ('0' :: x :: ds) ≠ [] := by simp
    show ∃ e, parse_sysex_core ('0' :: x :: ds) = .error e
    rw [parse_core_single _ hne hfacts]
    by_cases hodd : ('0' :: x :: ds).length % 2 ≠ 0
    · exact ⟨.oddLength, by rw [if_pos hodd]⟩
    · refine ⟨.emptyToken, ?_⟩
      rw [if_neg hodd]
      have hpt : processToken ['0', x] = .error .emptyToken := by
        rcases hx with rfl | rfl
        · decide
        · decide
      rw [show pairs ('0' :: x :: ds) = ['0', x] :: pairs ds from rfl,
        parseTokens_cons_error ['0', x] (pairs ds) .emptyToken hpt]
  · decide

/-- Witness for C10 at the concrete input `"0x7800"`. -/
theorem parse_prefixed_hex_rejected_witness :
    (('x' : Char) = 'x' ∨ ('x' : Char) = 'X') ∧
    (∀ c ∈ (['7', '8', '0', '0'] : List Char),
      (hexDigitValue c).isSome = true) ∧
    (2 : ℕ) < (['7', '8', '0', '0'] : List Char).length ∧
    (∃ e, parse_sysex_input
      (String.mk ('0' :: 'x' :: ['7', '8', '0', '0'])) = .error e) ∧
    parse_sysex_input "0x7800" = .error .emptyToken :=
  ⟨Or.inl rfl, by decide, by decide,
    parse_prefixed_hex_rejected.1 'x' ['7', '8', '0', '0'] (Or.inl rfl)
      (by decide) (by decide),
    parse_prefixed_hex_rejected.2⟩
